import Mathlib

/-!
Verification of the Kafka Consumer Group Manager
(pkg/common/consumer/consumer_manager.go and the consumer factory file).

The Go code is shallowly embedded: the manager's mutable state becomes a
`Manager` structure threaded explicitly, Go's `(error, state)` effects become
`Option Err × Manager`, and the `sarama.Config` pointer is an opaque `Nat`.
The per-group `managedGroup` state machine is not among the given sources
(only its call sites are), so it is modelled from the specification, §4.2.
-/

namespace ConsumerManager

/-- Error values of the subsystem.  Each constructor corresponds to one Go
error produced or matched by the code; `factoryFailure` stands for an opaque
error value coming out of the consumer factory / Kafka client library. -/
inductive Err where
  | closedConsumerGroup
  | closeNotManaged (groupId : String)
  | stopNotManaged (groupId : String)
  | startNotManaged (groupId : String)
  | lockConflict
  | stopWhileNotRunning
  | closeWhileClosed
  | versionMismatch (expected got : Nat)
  | factoryFailure (code : Nat)
  deriving DecidableEq, Repr

/-- The (brokers, client-config) pair held by the factory
(`kafkaConsumerGroupFactoryImpl`); the `sarama.Config` is opaque. -/
structure FactoryConfig where
  addrs : List String
  config : Nat
  deriving DecidableEq, Repr

/-- A consumer-group session, recording the factory configuration it was
created from and the group id it was created for. -/
structure Session where
  cfg : FactoryConfig
  groupId : String
  deriving DecidableEq, Repr

/-- Modelled from the spec: the state of a managed group, §4.2
(Running / Stopped / Closed). -/
inductive GroupState where
  | running
  | stopped
  | closed
  deriving DecidableEq, Repr

/-- `commands.CommandLock`: token plus the LockBefore / UnlockAfter bits. -/
structure CommandLock where
  token : String
  lockBefore : Bool
  unlockAfter : Bool
  deriving DecidableEq, Repr

/-- Modelled from the spec: a `managedGroup` record, §4.2 — the per-group
state machine with its current session and optional lock token.  (The
persistent error channel and the waiter/cancel plumbing are concurrency
artifacts treated separately.) -/
structure ManagedGroup where
  state : GroupState
  lockToken : Option String
  session : Option Session
  deriving DecidableEq, Repr

/-- Modelled from the spec: `managedGroup.processLock`, the lock discipline of
§4.2.  With `before = true` and the LockBefore bit set: an unlocked group
stores the token, a matching token proceeds, a different token fails with
LockConflict.  With `before = false` and the UnlockAfter bit set the token is
cleared. -/
def ManagedGroup.processLock (mg : ManagedGroup) (lock : CommandLock)
    (before : Bool) : Option Err × ManagedGroup :=
  if before then
    if lock.lockBefore then
      match mg.lockToken with
      | none => (none, { mg with lockToken := some lock.token })
      | some t =>
        if t = lock.token then (none, mg) else (some Err.lockConflict, mg)
    else (none, mg)
  else
    if lock.unlockAfter then (none, { mg with lockToken := none })
    else (none, mg)

/-- Modelled from the spec: `managedGroup.stop`, §4.2 — valid from Running,
closes the current session and transitions to Stopped. -/
def ManagedGroup.stop (mg : ManagedGroup) : Option Err × ManagedGroup :=
  match mg.state with
  | GroupState.running => (none, { mg with state := GroupState.stopped, session := none })
  | _ => (some Err.stopWhileNotRunning, mg)

/-- Modelled from the spec: `managedGroup.start`, §4.2 — valid from Stopped,
stores the new session and transitions to Running.  The call site in
`startConsumerGroup` ignores its result, so only the state update is kept. -/
def ManagedGroup.start (mg : ManagedGroup) (s : Session) : ManagedGroup :=
  match mg.state with
  | GroupState.stopped => { mg with state := GroupState.running, session := some s }
  | _ => mg

/-- Modelled from the spec: `managedGroup.close`, §4.2 — valid from any
non-Closed state; closes the session and transitions to Closed. -/
def ManagedGroup.close (mg : ManagedGroup) : Option Err × ManagedGroup :=
  match mg.state with
  | GroupState.closed => (some Err.closeWhileClosed, mg)
  | _ => (none, { mg with state := GroupState.closed, session := none })

/-- `createManagedGroup`: a fresh managed group in Running state holding the
session just obtained from the factory (spec §4.4, Start behavior). -/
def createManagedGroup (s : Session) : ManagedGroup :=
  { state := GroupState.running, lockToken := none, session := some s }

/-- The `groupMap` of `kafkaConsumerGroupManagerImpl` as an association list;
a Go map has unique keys, so theorems about whole-map iteration assume the
key list is duplicate-free. -/
abbrev GroupList := List (String × ManagedGroup)

/-- Map lookup (`m.groups[groupId]`). -/
def lookupGroup : GroupList → String → Option ManagedGroup
  | [], _ => none
  | (k, g) :: rest, gid => if k = gid then some g else lookupGroup rest gid

/-- Map update/insert; overwrites the entry at the key when present. -/
def setGroupList : GroupList → String → ManagedGroup → GroupList
  | [], gid, g => [(gid, g)]
  | (k, v) :: rest, gid, g =>
    if k = gid then (gid, g) :: rest else (k, v) :: setGroupList rest gid g

/-- Map deletion (`delete(m.groups, groupId)`). -/
def removeGroupList (l : GroupList) (gid : String) : GroupList :=
  l.filter (fun p => p.fst != gid)

/-- `kafkaConsumerGroupManagerImpl`: the factory plus the group map.  The
logger, control-protocol server and mutexes carry no verified state. -/
structure Manager where
  factory : FactoryConfig
  groups : GroupList
  deriving DecidableEq, Repr

/-- `getGroup`. -/
def getGroup (m : Manager) (groupId : String) : Option ManagedGroup :=
  lookupGroup m.groups groupId

/-- `setGroup`. -/
def setGroup (m : Manager) (groupId : String) (g : ManagedGroup) : Manager :=
  { m with groups := setGroupList m.groups groupId g }

/-- `removeGroup`. -/
def removeGroup (m : Manager) (groupId : String) : Manager :=
  { m with groups := removeGroupList m.groups groupId }

/-- `IsManaged`. -/
def IsManaged (m : Manager) (groupId : String) : Bool :=
  (getGroup m groupId).isSome

/-- `lockBefore`: a nonexistent group cannot be locked, so absence returns
success without touching anything; otherwise `processLock(lock, true)`. -/
def lockBefore (m : Manager) (lock : CommandLock) (groupId : String) :
    Option Err × Manager :=
  match getGroup m groupId with
  | none => (none, m)
  | some g =>
    match ManagedGroup.processLock g lock true with
    | (e, g1) => (e, setGroup m groupId g1)

/-- `unlockAfter`: a nonexistent group cannot be unlocked, so absence returns
success without touching anything; otherwise `processLock(lock, false)`. -/
def unlockAfter (m : Manager) (lock : CommandLock) (groupId : String) :
    Option Err × Manager :=
  match getGroup m groupId with
  | none => (none, m)
  | some g =>
    match ManagedGroup.processLock g lock false with
    | (e, g1) => (e, setGroup m groupId g1)

/-- The factory's `createConsumerGroup` is not among the given sources; the
manager functions take it as a parameter `create` mapping the current factory
configuration and group id to a fresh session or an error. -/
def CreateFn := FactoryConfig → String → Except Err Session

/-- `StartConsumerGroup` (the manager's public one): create a session from the
factory, build a managed group around it and register it with `setGroup`.  The
topics/handler/logger arguments and the spawned consume goroutine carry no
registry state; the goroutine's loop is modelled separately as `consumeLoop`. -/
def StartConsumerGroup (create : CreateFn) (m : Manager) (groupId : String) :
    Option Err × Manager :=
  match create m.factory groupId with
  | Except.error e => (some e, m)
  | Except.ok group => (none, setGroup m groupId (createManagedGroup group))

/-- `CloseConsumerGroup`: fail when the id is unknown; otherwise close the
managed group and, on success, remove it from the map. -/
def CloseConsumerGroup (m : Manager) (groupId : String) : Option Err × Manager :=
  match getGroup m groupId with
  | none => (some (Err.closeNotManaged groupId), m)
  | some g =>
    match ManagedGroup.close g with
    | (some e, g1) => (some e, setGroup m groupId g1)
    | (none, _) => (none, removeGroup m groupId)

/-- `stopConsumerGroup`: lock (if requested), fail when the id is unknown,
stop the managed group, then unlock (if requested). -/
def stopConsumerGroup (m : Manager) (lock : CommandLock) (groupId : String) :
    Option Err × Manager :=
  match lockBefore m lock groupId with
  | (some e, m1) => (some e, m1)
  | (none, m1) =>
    match getGroup m1 groupId with
    | none => (some (Err.stopNotManaged groupId), m1)
    | some g =>
      match ManagedGroup.stop g with
      | (some e, g1) => (some e, setGroup m1 groupId g1)
      | (none, g1) => unlockAfter (setGroup m1 groupId g1) lock groupId

/-- `startConsumerGroup` (the control-protocol one): lock (if requested), fail
when the id is unknown, create a fresh session from the current factory, hand
it to the managed group, then unlock (if requested). -/
def startConsumerGroup (create : CreateFn) (m : Manager) (lock : CommandLock)
    (groupId : String) : Option Err × Manager :=
  match lockBefore m lock groupId with
  | (some e, m1) => (some e, m1)
  | (none, m1) =>
    match getGroup m1 groupId with
    | none => (some (Err.startNotManaged groupId), m1)
    | some g =>
      match create m1.factory groupId with
      | Except.error e => (some e, m1)
      | Except.ok sess =>
        unlockAfter (setGroup m1 groupId (ManagedGroup.start g sess)) lock groupId

/-- The reserved token used by Reconfigure-internal stop/start operations. -/
def internalToken : String := "internal-token"

/-- The `CommandLock` Reconfigure passes to its internal stops:
the internal token with LockBefore set. -/
def reconfigureStopLock : CommandLock :=
  { token := internalToken, lockBefore := true, unlockAfter := false }

/-- The `CommandLock` Reconfigure passes to its internal restarts:
the internal token with UnlockAfter set. -/
def reconfigureStartLock : CommandLock :=
  { token := internalToken, lockBefore := false, unlockAfter := true }

/-- The stop half of `Reconfigure`'s loop over the group map: attempt
`stopConsumerGroup` with the internal token and LockBefore on each id,
collecting the errors of failed stops and the ids of successful ones
(`groupsToRestart`).  The id list is the map's iteration order. -/
def reconfigureStopPhase (m : Manager) : List String → List Err × List String × Manager
  | [] => ([], [], m)
  | gid :: rest =>
    let r := stopConsumerGroup m reconfigureStopLock gid
    let rec1 := reconfigureStopPhase r.snd rest
    match r.fst with
    | some e => (e :: rec1.1, rec1.2.1, rec1.2.2)
    | none => (rec1.1, gid :: rec1.2.1, rec1.2.2)

/-- The restart half of `Reconfigure`: `startConsumerGroup` with the internal
token and UnlockAfter on each id this Reconfigure stopped, collecting the
errors of failed starts. -/
def reconfigureStartPhase (create : CreateFn) (m : Manager) :
    List String → List Err × Manager
  | [] => ([], m)
  | gid :: rest =>
    let r := startConsumerGroup create m reconfigureStartLock gid
    let rec1 := reconfigureStartPhase create r.snd rest
    match r.fst with
    | some e => (e :: rec1.1, rec1.2)
    | none => rec1

/-- `Reconfigure`: stop every managed group (recording errors, remembering
which stops succeeded), replace the factory with the new brokers/config, then
restart the groups this function stopped; the result aggregates every
sub-failure (`multierr`), the empty list standing for the nil error. -/
def Reconfigure (create : CreateFn) (m : Manager) (brokers : List String)
    (config : Nat) : List Err × Manager :=
  let s := reconfigureStopPhase m (m.groups.map Prod.fst)
  let m2 : Manager := { s.2.2 with factory := { addrs := brokers, config := config } }
  let r := reconfigureStartPhase create m2 s.2.1
  (s.1 ++ r.1, r.2)

/-- The supervised consume goroutine of the factory's `StartConsumerGroup`
(the `for` loop around `manager.Consume`).  Each element of the input list is
one iteration's observation: the error returned by the Consume call (`none`
for a nil error) and whether `ctx.Done()` is ready at the `select`.  The
result is the list of errors sent to the handler error channel and whether
the loop returned within the given iterations. -/
def consumeLoop : List (Option Err × Bool) → List Err × Bool
  | [] => ([], false)
  | (res, ctxDone) :: rest =>
    match res with
    | some e =>
      if e = Err.closedConsumerGroup then ([], true)
      else if ctxDone then ([e], true)
      else
        match consumeLoop rest with
        | (errs, exited) => (e :: errs, exited)
    | none =>
      if ctxDone then ([], true)
      else consumeLoop rest

/-- `commands.ConsumerGroupAsyncCommandVersion`.  Modelled from the spec: the
compiled-in version constant of the control-protocol command payload (its
numeric value is irrelevant to the handler's dispatch logic). -/
def ConsumerGroupAsyncCommandVersion : Nat := 1

/-- `commands.ConsumerGroupAsyncCommand`: version, group id and lock. -/
structure ConsumerGroupAsyncCommand where
  version : Nat
  groupId : String
  lock : CommandLock
  deriving DecidableEq, Repr

/-- The result of `commandMessage.ParsedCommand()`: either the expected
command shape or some other payload (the failed type assertion). -/
inductive ParsedCommand where
  | consumerGroupAsyncCommand (cmd : ConsumerGroupAsyncCommand)
  | otherShape
  deriving DecidableEq, Repr

/-- The async reply issued on the command message, if any. -/
inductive Reply where
  | noReply
  | notifySuccess
  | notifyFailed (e : Err)
  deriving DecidableEq, Repr

/-- `processAsyncGroupNotification`: drop payloads of the wrong shape, reject
version mismatches with NotifyFailed, otherwise invoke the group operation
and reply NotifySuccess / NotifyFailed from its result.  The second component
records the arguments the group operation was invoked with (`none` when it
was not invoked), making "no side effects" observable. -/
def processAsyncGroupNotification (parsed : ParsedCommand)
    (groupFunction : CommandLock → String → Option Err) :
    Reply × Option (CommandLock × String) :=
  match parsed with
  | ParsedCommand.otherShape => (Reply.noReply, none)
  | ParsedCommand.consumerGroupAsyncCommand cmd =>
    if cmd.version ≠ ConsumerGroupAsyncCommandVersion then
      (Reply.notifyFailed
        (Err.versionMismatch ConsumerGroupAsyncCommandVersion cmd.version), none)
    else
      match groupFunction cmd.lock cmd.groupId with
      | some e => (Reply.notifyFailed e, some (cmd.lock, cmd.groupId))
      | none => (Reply.notifySuccess, some (cmd.lock, cmd.groupId))

/-! ### Registry lemmas -/

theorem lookupGroup_set_self (l : GroupList) (gid : String) (g : ManagedGroup) :
    lookupGroup (setGroupList l gid g) gid = some g := by
  induction l with
  | nil => simp [setGroupList, lookupGroup]
  | cons p rest ih =>
    obtain ⟨k, v⟩ := p
    by_cases h : k = gid
    · simp [setGroupList, h, lookupGroup]
    · simp [setGroupList, h, lookupGroup, ih]

theorem lookupGroup_set_other (l : GroupList) (gid gid1 : String)
    (g : ManagedGroup) (h : gid1 ≠ gid) :
    lookupGroup (setGroupList l gid g) gid1 = lookupGroup l gid1 := by
  have h2 : gid ≠ gid1 := Ne.symm h
  induction l with
  | nil => simp [setGroupList, lookupGroup, h2]
  | cons p rest ih =>
    obtain ⟨k, v⟩ := p
    by_cases hk : k = gid
    · subst hk
      simp [setGroupList, lookupGroup, h2]
    · simp [setGroupList, hk, lookupGroup, ih]

/-! ### Example fixtures used by witnesses and counterexamples -/

def oldFactory : FactoryConfig := { addrs := ["old-broker"], config := 7 }

def exampleFactory : FactoryConfig := { addrs := ["broker-1"], config := 0 }

def exampleRunningGroup : ManagedGroup :=
  { state := GroupState.running, lockToken := none,
    session := some { cfg := oldFactory, groupId := "g1" } }

def exampleManager : Manager :=
  { factory := exampleFactory, groups := [("g1", exampleRunningGroup)] }

/-- A factory whose session creation always succeeds, the session recording
the configuration it was created from. -/
def okCreate : CreateFn := fun f gid => Except.ok { cfg := f, groupId := gid }

/-- A factory whose session creation always fails. -/
def failCreate : CreateFn := fun _ _ => Except.error (Err.factoryFailure 3)

/-- A running group locked by an external token, as in the spec's
"Reconfigure under partial lock" scenario. -/
def lockedGroup : ManagedGroup :=
  { state := GroupState.running, lockToken := some "X",
    session := some { cfg := oldFactory, groupId := "g2" } }

def twoGroupManager : Manager :=
  { factory := oldFactory,
    groups := [("g1", exampleRunningGroup), ("g2", lockedGroup)] }

/-! ### C1 -/

/-- C1 counterexample: `StartConsumerGroup` on an id that is already
registered does not fail with AlreadyManaged — it succeeds (nil error) and
replaces the existing entry in the registry. -/
theorem start_on_registered_id_succeeds_and_overwrites :
    IsManaged exampleManager "g1" = true
    ∧ (StartConsumerGroup okCreate exampleManager "g1").fst = none
    ∧ (StartConsumerGroup okCreate exampleManager "g1").snd ≠ exampleManager := by
  decide

/-- C1 amended: `StartConsumerGroup` performs no already-managed check —
whenever the factory succeeds it registers the fresh group at that id,
overwriting any existing entry, and returns success. -/
theorem start_consumer_group_overwrites (create : CreateFn) (m : Manager)
    (gid : String) (sess : Session) (h : create m.factory gid = Except.ok sess) :
    StartConsumerGroup create m gid = (none, setGroup m gid (createManagedGroup sess))
    ∧ getGroup (StartConsumerGroup create m gid).snd gid
        = some (createManagedGroup sess) := by
  refine ⟨?_, ?_⟩ <;>
    simp [StartConsumerGroup, h, getGroup, setGroup, lookupGroup_set_self]

theorem start_consumer_group_overwrites_witness :
    StartConsumerGroup okCreate exampleManager "g1"
      = (none, setGroup exampleManager "g1"
          (createManagedGroup { cfg := exampleFactory, groupId := "g1" })) :=
  (start_consumer_group_overwrites okCreate exampleManager "g1"
    { cfg := exampleFactory, groupId := "g1" } rfl).1

/-! ### C3 -/

theorem consumeLoop_sentinel_absorbed (steps : List (Option Err × Bool)) :
    Err.closedConsumerGroup ∉ (consumeLoop steps).fst := by
  induction steps with
  | nil => simp [consumeLoop]
  | cons p rest ih =>
    obtain ⟨res, d⟩ := p
    match res with
    | none =>
      by_cases hd : d <;> simp [consumeLoop, hd, ih]
    | some e =>
      by_cases he : e = Err.closedConsumerGroup
      · simp [consumeLoop, he]
      · by_cases hd : d <;>
          simp [consumeLoop, he, hd, ih, Ne.symm he]

theorem consumeLoop_forwards_all_when_uninterrupted
    (steps : List (Option Err × Bool))
    (h : ∀ p ∈ steps, p.fst ≠ some Err.closedConsumerGroup ∧ p.snd = false) :
    consumeLoop steps = (steps.filterMap Prod.fst, false) := by
  induction steps with
  | nil => simp [consumeLoop]
  | cons p rest ih =>
    obtain ⟨res, d⟩ := p
    have hp := h (res, d) (List.mem_cons_self _ _)
    have hrest : ∀ p ∈ rest, p.fst ≠ some Err.closedConsumerGroup ∧ p.snd = false :=
      fun q hq => h q (List.mem_cons_of_mem _ hq)
    match res with
    | none =>
      have hd : d = false := hp.2
      simp [consumeLoop, hd, ih hrest]
    | some e =>
      have he : e ≠ Err.closedConsumerGroup := by
        intro hc
        exact hp.1 (by simp [hc])
      have hd : d = false := hp.2
      simp [consumeLoop, he, hd, ih hrest]

/-- C3: the supervised consume loop never forwards the closed-group sentinel
into the handler error channel; a non-sentinel error of an iteration is
forwarded; and while no sentinel is seen and the context is not done, the
loop forwards exactly every non-nil error and keeps consuming. -/
theorem consume_loop_error_policy :
    (∀ steps : List (Option Err × Bool),
        Err.closedConsumerGroup ∉ (consumeLoop steps).fst)
    ∧ (∀ (e : Err) (d : Bool) (rest : List (Option Err × Bool)),
        e ≠ Err.closedConsumerGroup →
        e ∈ (consumeLoop ((some e, d) :: rest)).fst)
    ∧ (∀ steps : List (Option Err × Bool),
        (∀ p ∈ steps, p.fst ≠ some Err.closedConsumerGroup ∧ p.snd = false) →
        consumeLoop steps = (steps.filterMap Prod.fst, false)) := by
  refine ⟨consumeLoop_sentinel_absorbed, ?_, consumeLoop_forwards_all_when_uninterrupted⟩
  intro e d rest he
  by_cases hd : d <;> simp [consumeLoop, he, hd]

theorem consume_loop_error_policy_witness :
    Err.closedConsumerGroup ∉
      (consumeLoop [(some (Err.factoryFailure 0), false), (none, false)]).fst
    ∧ Err.factoryFailure 0 ∈
      (consumeLoop [(some (Err.factoryFailure 0), false), (none, false)]).fst
    ∧ consumeLoop [(some (Err.factoryFailure 0), false), (none, false)]
        = ([Err.factoryFailure 0], false) :=
  ⟨consume_loop_error_policy.1 _,
   consume_loop_error_policy.2.1 (Err.factoryFailure 0) false [(none, false)] (by decide),
   consume_loop_error_policy.2.2 _ (by decide)⟩

/-! ### C5 -/

/-- C5: the async command handler drops payloads of the wrong shape without
reply or invocation; rejects version mismatches with NotifyFailed and no
invocation; and otherwise invokes the group operation once, replying
NotifySuccess on nil and NotifyFailed with the returned error otherwise. -/
theorem process_async_group_notification_cases
    (groupFunction : CommandLock → String → Option Err)
    (cmd : ConsumerGroupAsyncCommand) :
    processAsyncGroupNotification ParsedCommand.otherShape groupFunction
      = (Reply.noReply, none)
    ∧ (cmd.version ≠ ConsumerGroupAsyncCommandVersion →
        processAsyncGroupNotification
            (ParsedCommand.consumerGroupAsyncCommand cmd) groupFunction
          = (Reply.notifyFailed
              (Err.versionMismatch ConsumerGroupAsyncCommandVersion cmd.version),
             none))
    ∧ (cmd.version = ConsumerGroupAsyncCommandVersion →
        groupFunction cmd.lock cmd.groupId = none →
        processAsyncGroupNotification
            (ParsedCommand.consumerGroupAsyncCommand cmd) groupFunction
          = (Reply.notifySuccess, some (cmd.lock, cmd.groupId)))
    ∧ (∀ e : Err, cmd.version = ConsumerGroupAsyncCommandVersion →
        groupFunction cmd.lock cmd.groupId = some e →
        processAsyncGroupNotification
            (ParsedCommand.consumerGroupAsyncCommand cmd) groupFunction
          = (Reply.notifyFailed e, some (cmd.lock, cmd.groupId))) := by
  refine ⟨rfl, ?_, ?_, ?_⟩
  · intro hv
    simp [processAsyncGroupNotification, hv]
  · intro hv hf
    simp [processAsyncGroupNotification, hv, hf]
  · intro e hv hf
    simp [processAsyncGroupNotification, hv, hf]

def exampleCommand : ConsumerGroupAsyncCommand :=
  { version := ConsumerGroupAsyncCommandVersion, groupId := "g1",
    lock := { token := "T", lockBefore := true, unlockAfter := false } }

theorem process_async_group_notification_cases_witness :
    processAsyncGroupNotification
        (ParsedCommand.consumerGroupAsyncCommand exampleCommand) (fun _ _ => none)
      = (Reply.notifySuccess, some (exampleCommand.lock, exampleCommand.groupId)) :=
  (process_async_group_notification_cases (fun _ _ => none) exampleCommand).2.2.1 rfl rfl

/-! ### C6 -/

/-- C6: when the factory fails during `StartConsumerGroup`, the factory error
is returned verbatim and the manager state — in particular the registry and
`IsManaged` for that id — is unchanged; no managed group is constructed. -/
theorem start_factory_failure_leaves_state (create : CreateFn) (m : Manager)
    (gid : String) (e : Err) (h : create m.factory gid = Except.error e) :
    StartConsumerGroup create m gid = (some e, m)
    ∧ IsManaged (StartConsumerGroup create m gid).snd gid = IsManaged m gid := by
  refine ⟨?_, ?_⟩ <;> simp [StartConsumerGroup, h]

theorem start_factory_failure_leaves_state_witness :
    StartConsumerGroup failCreate exampleManager "g3"
      = (some (Err.factoryFailure 3), exampleManager) :=
  (start_factory_failure_leaves_state failCreate exampleManager "g3"
    (Err.factoryFailure 3) rfl).1

/-! ### C7 -/

/-- C7: both `CloseConsumerGroup` and `stopConsumerGroup` fail with a
NotManaged error on a group id absent from the registry, leaving the manager
(the registry and every managed group) unchanged. -/
theorem close_and_stop_unknown_group_not_managed (m : Manager)
    (lock : CommandLock) (gid : String) (h : getGroup m gid = none) :
    CloseConsumerGroup m gid = (some (Err.closeNotManaged gid), m)
    ∧ stopConsumerGroup m lock gid = (some (Err.stopNotManaged gid), m) := by
  constructor
  · simp [CloseConsumerGroup, h]
  · simp [stopConsumerGroup, lockBefore, h]

theorem close_and_stop_unknown_group_not_managed_witness :
    CloseConsumerGroup exampleManager "gX"
      = (some (Err.closeNotManaged "gX"), exampleManager)
    ∧ stopConsumerGroup exampleManager
        { token := "T", lockBefore := true, unlockAfter := false } "gX"
      = (some (Err.stopNotManaged "gX"), exampleManager) :=
  close_and_stop_unknown_group_not_managed exampleManager
    { token := "T", lockBefore := true, unlockAfter := false } "gX" (by decide)

/-! ### C8 -/

/-- C8: the lock helpers treat an absent group as vacuously successful — for
every CommandLock and every unregistered id, both `lockBefore` and
`unlockAfter` return nil and leave the manager unchanged. -/
theorem lock_helpers_vacuous_when_absent (m : Manager) (lock : CommandLock)
    (gid : String) (h : getGroup m gid = none) :
    lockBefore m lock gid = (none, m) ∧ unlockAfter m lock gid = (none, m) := by
  constructor <;> simp [lockBefore, unlockAfter, h]

theorem lock_helpers_vacuous_when_absent_witness :
    lockBefore exampleManager
        { token := "T", lockBefore := true, unlockAfter := true } "gX"
      = (none, exampleManager)
    ∧ unlockAfter exampleManager
        { token := "T", lockBefore := true, unlockAfter := true } "gX"
      = (none, exampleManager) :=
  lock_helpers_vacuous_when_absent exampleManager
    { token := "T", lockBefore := true, unlockAfter := true } "gX" (by decide)

/-! ### Manager-level registry lemmas -/

theorem getGroup_set_self (m : Manager) (gid : String) (g : ManagedGroup) :
    getGroup (setGroup m gid g) gid = some g := by
  simp [getGroup, setGroup, lookupGroup_set_self]

theorem getGroup_set_other (m : Manager) (gid gid1 : String) (g : ManagedGroup)
    (h : gid1 ≠ gid) :
    getGroup (setGroup m gid g) gid1 = getGroup m gid1 := by
  simp [getGroup, setGroup, lookupGroup_set_other _ _ _ _ h]

theorem setGroup_factory (m : Manager) (gid : String) (g : ManagedGroup) :
    (setGroup m gid g).factory = m.factory := rfl

/-! ### Reconfigure helper values -/

/-- The state a group is left in by a successful Reconfigure-internal stop:
Stopped, holding the internal token, with no current session. -/
def stoppedInternalGroup : ManagedGroup :=
  { state := GroupState.stopped, lockToken := some internalToken, session := none }

/-- The error component of a factory creation result. -/
def errOfCreate : Except Err Session → Option Err
  | Except.error e => some e
  | Except.ok _ => none

/-! ### Localization lemmas for stopConsumerGroup / startConsumerGroup -/

theorem stopConsumerGroup_fst_congr (m m' : Manager) (lock : CommandLock)
    (gid : String) (h : getGroup m gid = getGroup m' gid) :
    (stopConsumerGroup m lock gid).fst = (stopConsumerGroup m' lock gid).fst := by
  cases hg : getGroup m gid with
  | none =>
    have hg' : getGroup m' gid = none := h.symm.trans hg
    simp [stopConsumerGroup, lockBefore, hg, hg']
  | some g =>
    have hg' : getGroup m' gid = some g := h.symm.trans hg
    rcases hpl : ManagedGroup.processLock g lock true with ⟨e, g1⟩
    cases e with
    | some err => simp [stopConsumerGroup, lockBefore, hg, hg', hpl]
    | none =>
      rcases hst : ManagedGroup.stop g1 with ⟨e2, g2⟩
      cases e2 with
      | some err2 =>
        simp [stopConsumerGroup, lockBefore, hg, hg', hpl, hst, getGroup_set_self]
      | none =>
        simp [stopConsumerGroup, lockBefore, hg, hg', hpl, hst, unlockAfter,
              getGroup_set_self]

theorem stopConsumerGroup_preserves (m : Manager) (lock : CommandLock)
    (gid : String) :
    (stopConsumerGroup m lock gid).snd.factory = m.factory
    ∧ ∀ gid1, gid1 ≠ gid →
        getGroup (stopConsumerGroup m lock gid).snd gid1 = getGroup m gid1 := by
  cases hg : getGroup m gid with
  | none => simp [stopConsumerGroup, lockBefore, hg]
  | some g =>
    rcases hpl : ManagedGroup.processLock g lock true with ⟨e, g1⟩
    cases e with
    | some err =>
      constructor
      · simp [stopConsumerGroup, lockBefore, hg, hpl, setGroup_factory]
      · intro gid1 h1
        simp [stopConsumerGroup, lockBefore, hg, hpl, getGroup_set_other _ _ _ _ h1]
    | none =>
      rcases hst : ManagedGroup.stop g1 with ⟨e2, g2⟩
      cases e2 with
      | some err2 =>
        constructor
        · simp [stopConsumerGroup, lockBefore, hg, hpl, hst, getGroup_set_self,
                setGroup_factory]
        · intro gid1 h1
          simp [stopConsumerGroup, lockBefore, hg, hpl, hst, getGroup_set_self,
                getGroup_set_other _ _ _ _ h1]
      | none =>
        constructor
        · simp [stopConsumerGroup, lockBefore, hg, hpl, hst, unlockAfter,
                getGroup_set_self, setGroup_factory]
        · intro gid1 h1
          simp [stopConsumerGroup, lockBefore, hg, hpl, hst, unlockAfter,
                getGroup_set_self, setGroup_factory,
                getGroup_set_other _ _ _ _ h1]

theorem stopConsumerGroup_reconfigure_success_entry (m : Manager) (gid : String)
    (h : (stopConsumerGroup m reconfigureStopLock gid).fst = none) :
    getGroup (stopConsumerGroup m reconfigureStopLock gid).snd gid
      = some stoppedInternalGroup := by
  cases hg : getGroup m gid with
  | none => simp [stopConsumerGroup, lockBefore, hg] at h
  | some g =>
    obtain ⟨st, tok, sess⟩ := g
    cases tok with
    | none =>
      cases st with
      | running =>
        simp [stopConsumerGroup, lockBefore, unlockAfter, hg,
              ManagedGroup.processLock, ManagedGroup.stop, reconfigureStopLock,
              getGroup_set_self, stoppedInternalGroup]
      | stopped =>
        simp [stopConsumerGroup, lockBefore, hg, ManagedGroup.processLock,
              ManagedGroup.stop, reconfigureStopLock, getGroup_set_self] at h
      | closed =>
        simp [stopConsumerGroup, lockBefore, hg, ManagedGroup.processLock,
              ManagedGroup.stop, reconfigureStopLock, getGroup_set_self] at h
    | some t =>
      by_cases ht : t = internalToken
      · subst ht
        cases st with
        | running =>
          simp [stopConsumerGroup, lockBefore, unlockAfter, hg,
                ManagedGroup.processLock, ManagedGroup.stop, reconfigureStopLock,
                getGroup_set_self, stoppedInternalGroup]
        | stopped =>
          simp [stopConsumerGroup, lockBefore, hg, ManagedGroup.processLock,
                ManagedGroup.stop, reconfigureStopLock, getGroup_set_self] at h
        | closed =>
          simp [stopConsumerGroup, lockBefore, hg, ManagedGroup.processLock,
                ManagedGroup.stop, reconfigureStopLock, getGroup_set_self] at h
      · simp [stopConsumerGroup, lockBefore, hg, ManagedGroup.processLock,
              reconfigureStopLock, ht] at h

theorem startConsumerGroup_preserves (create : CreateFn) (m : Manager)
    (lock : CommandLock) (gid : String) :
    (startConsumerGroup create m lock gid).snd.factory = m.factory
    ∧ ∀ gid1, gid1 ≠ gid →
        getGroup (startConsumerGroup create m lock gid).snd gid1 = getGroup m gid1 := by
  cases hg : getGroup m gid with
  | none => simp [startConsumerGroup, lockBefore, hg]
  | some g =>
    rcases hpl : ManagedGroup.processLock g lock true with ⟨e, g1⟩
    cases e with
    | some err =>
      constructor
      · simp [startConsumerGroup, lockBefore, hg, hpl, setGroup_factory]
      · intro gid1 h1
        simp [startConsumerGroup, lockBefore, hg, hpl, getGroup_set_other _ _ _ _ h1]
    | none =>
      cases hc : create m.factory gid with
      | error e2 =>
        constructor
        · simp [startConsumerGroup, lockBefore, hg, hpl, hc, getGroup_set_self,
                setGroup_factory]
        · intro gid1 h1
          simp [startConsumerGroup, lockBefore, hg, hpl, hc, getGroup_set_self,
                setGroup_factory, getGroup_set_other _ _ _ _ h1]
      | ok s =>
        constructor
        · simp [startConsumerGroup, lockBefore, hg, hpl, hc, getGroup_set_self,
                unlockAfter, setGroup_factory]
        · intro gid1 h1
          simp [startConsumerGroup, lockBefore, hg, hpl, hc, getGroup_set_self,
                unlockAfter, setGroup_factory, getGroup_set_other _ _ _ _ h1]

theorem startConsumerGroup_reconfigure_error (create : CreateFn) (m : Manager)
    (gid : String) (g : ManagedGroup) (e : Err)
    (hg : getGroup m gid = some g) (hc : create m.factory gid = Except.error e) :
    (startConsumerGroup create m reconfigureStartLock gid).fst = some e
    ∧ getGroup (startConsumerGroup create m reconfigureStartLock gid).snd gid
        = some g := by
  have hpl : ManagedGroup.processLock g reconfigureStartLock true = (none, g) := by
    simp [ManagedGroup.processLock, reconfigureStartLock]
  constructor <;>
    simp [startConsumerGroup, lockBefore, hg, hpl, hc, setGroup_factory,
          getGroup_set_self]

theorem startConsumerGroup_reconfigure_ok (create : CreateFn) (m : Manager)
    (gid : String) (g : ManagedGroup) (s : Session)
    (hg : getGroup m gid = some g) (hstopped : g.state = GroupState.stopped)
    (hc : create m.factory gid = Except.ok s) :
    (startConsumerGroup create m reconfigureStartLock gid).fst = none
    ∧ getGroup (startConsumerGroup create m reconfigureStartLock gid).snd gid
        = some { state := GroupState.running, lockToken := none, session := some s } := by
  have hpl : ManagedGroup.processLock g reconfigureStartLock true = (none, g) := by
    simp [ManagedGroup.processLock, reconfigureStartLock]
  have hstart : ManagedGroup.start g s
      = { state := GroupState.running, lockToken := g.lockToken, session := some s } := by
    obtain ⟨st, tok, sess⟩ := g
    simp only [] at hstopped
    simp [ManagedGroup.start, hstopped]
  have hul : ManagedGroup.processLock
      { state := GroupState.running, lockToken := g.lockToken, session := some s }
      reconfigureStartLock false
      = (none, { state := GroupState.running, lockToken := none, session := some s }) := by
    simp [ManagedGroup.processLock, reconfigureStartLock]
  constructor <;>
    simp [startConsumerGroup, lockBefore, hg, hpl, hc, setGroup_factory,
          getGroup_set_self, hstart, unlockAfter, hul]

/-! ### The Reconfigure stop phase, characterized -/

theorem reconfigureStopPhase_spec (m0 : Manager) (ids : List String) :
    ∀ m : Manager, (∀ gid ∈ ids, getGroup m gid = getGroup m0 gid) → ids.Nodup →
    ((reconfigureStopPhase m ids).1
        = ids.filterMap (fun gid => (stopConsumerGroup m0 reconfigureStopLock gid).fst)
    ∧ (∀ gid, gid ∈ (reconfigureStopPhase m ids).2.1 ↔
        gid ∈ ids ∧ (stopConsumerGroup m0 reconfigureStopLock gid).fst = none)
    ∧ (reconfigureStopPhase m ids).2.1.Sublist ids
    ∧ (reconfigureStopPhase m ids).2.2.factory = m.factory
    ∧ (∀ gid ∈ (reconfigureStopPhase m ids).2.1,
        getGroup (reconfigureStopPhase m ids).2.2 gid = some stoppedInternalGroup)
    ∧ (∀ gid, gid ∉ ids →
        getGroup (reconfigureStopPhase m ids).2.2 gid = getGroup m gid)) := by
  induction ids with
  | nil =>
    intro m _ _
    simp [reconfigureStopPhase]
  | cons gid rest ih =>
    intro m hagree hnd
    have hnotin : gid ∉ rest := (List.nodup_cons.mp hnd).1
    have hndrest : rest.Nodup := (List.nodup_cons.mp hnd).2
    have hfst : (stopConsumerGroup m reconfigureStopLock gid).fst
        = (stopConsumerGroup m0 reconfigureStopLock gid).fst :=
      stopConsumerGroup_fst_congr _ _ _ _ (hagree gid (List.mem_cons_self _ _))
    have hfac1 : (stopConsumerGroup m reconfigureStopLock gid).snd.factory = m.factory :=
      (stopConsumerGroup_preserves m reconfigureStopLock gid).1
    have hframe1 : ∀ gid1, gid1 ≠ gid →
        getGroup (stopConsumerGroup m reconfigureStopLock gid).snd gid1
          = getGroup m gid1 :=
      (stopConsumerGroup_preserves m reconfigureStopLock gid).2
    have hagree1 : ∀ g ∈ rest,
        getGroup (stopConsumerGroup m reconfigureStopLock gid).snd g = getGroup m0 g := by
      intro g hgR
      have hne : g ≠ gid := fun hEq => hnotin (hEq ▸ hgR)
      rw [hframe1 g hne]
      exact hagree g (List.mem_cons_of_mem _ hgR)
    obtain ⟨IH1, IH2, IH3, IH4, IH5, IH6⟩ :=
      ih (stopConsumerGroup m reconfigureStopLock gid).snd hagree1 hndrest
    cases he : (stopConsumerGroup m reconfigureStopLock gid).fst with
    | some err =>
      have hout : (stopConsumerGroup m0 reconfigureStopLock gid).fst = some err := by
        rw [← hfst]
        exact he
      refine ⟨?_, ?_, ?_, ?_, ?_, ?_⟩
      · simp [reconfigureStopPhase, he, List.filterMap_cons, hout, IH1]
      · intro g
        simp only [reconfigureStopPhase, he]
        rw [IH2 g]
        constructor
        · rintro ⟨hgR, hz⟩
          exact ⟨List.mem_cons_of_mem _ hgR, hz⟩
        · rintro ⟨hgC, hz⟩
          rcases List.mem_cons.mp hgC with hEq | hgR
          · subst hEq
            rw [hout] at hz
            simp at hz
          · exact ⟨hgR, hz⟩
      · simp only [reconfigureStopPhase, he]
        exact IH3.trans (List.sublist_cons_self _ _)
      · simp only [reconfigureStopPhase, he]
        rw [IH4, hfac1]
      · intro g hgT
        simp only [reconfigureStopPhase, he] at hgT ⊢
        exact IH5 g hgT
      · intro g hgN
        have hg1 : g ≠ gid := fun hEq => hgN (hEq ▸ List.mem_cons_self _ _)
        have hg2 : g ∉ rest := fun hR => hgN (List.mem_cons_of_mem _ hR)
        simp only [reconfigureStopPhase, he]
        rw [IH6 g hg2, hframe1 g hg1]
    | none =>
      have hout : (stopConsumerGroup m0 reconfigureStopLock gid).fst = none := by
        rw [← hfst]
        exact he
      have hentry1 : getGroup (stopConsumerGroup m reconfigureStopLock gid).snd gid
          = some stoppedInternalGroup :=
        stopConsumerGroup_reconfigure_success_entry m gid he
      refine ⟨?_, ?_, ?_, ?_, ?_, ?_⟩
      · simp [reconfigureStopPhase, he, List.filterMap_cons, hout, IH1]
      · intro g
        simp only [reconfigureStopPhase, he]
        rw [List.mem_cons, IH2 g]
        constructor
        · rintro (hEq | ⟨hgR, hz⟩)
          · subst hEq
            exact ⟨List.mem_cons_self _ _, hout⟩
          · exact ⟨List.mem_cons_of_mem _ hgR, hz⟩
        · rintro ⟨hgC, hz⟩
          rcases List.mem_cons.mp hgC with hEq | hgR
          · exact Or.inl hEq
          · exact Or.inr ⟨hgR, hz⟩
      · simp only [reconfigureStopPhase, he]
        exact IH3.cons₂ gid
      · simp only [reconfigureStopPhase, he]
        rw [IH4, hfac1]
      · intro g hgT
        simp only [reconfigureStopPhase, he] at hgT ⊢
        rcases List.mem_cons.mp hgT with hEq | hgR
        · subst hEq
          rw [IH6 g hnotin, hentry1]
        · exact IH5 g hgR
      · intro g hgN
        have hg1 : g ≠ gid := fun hEq => hgN (hEq ▸ List.mem_cons_self _ _)
        have hg2 : g ∉ rest := fun hR => hgN (List.mem_cons_of_mem _ hR)
        simp only [reconfigureStopPhase, he]
        rw [IH6 g hg2, hframe1 g hg1]

/-! ### The Reconfigure restart phase, characterized -/

theorem reconfigureStartPhase_spec (create : CreateFn) (f : FactoryConfig)
    (ids : List String) :
    ∀ m : Manager, m.factory = f →
      (∀ gid ∈ ids, getGroup m gid = some stoppedInternalGroup) → ids.Nodup →
    ((reconfigureStartPhase create m ids).1
        = ids.filterMap (fun gid => errOfCreate (create f gid))
    ∧ (reconfigureStartPhase create m ids).2.factory = f
    ∧ (∀ gid ∈ ids, ∀ s, create f gid = Except.ok s →
        getGroup (reconfigureStartPhase create m ids).2 gid
          = some { state := GroupState.running, lockToken := none, session := some s })
    ∧ (∀ gid, gid ∉ ids →
        getGroup (reconfigureStartPhase create m ids).2 gid = getGroup m gid)) := by
  induction ids with
  | nil =>
    intro m hf _ _
    simp [reconfigureStartPhase, hf]
  | cons gid rest ih =>
    intro m hf hentries hnd
    have hnotin : gid ∉ rest := (List.nodup_cons.mp hnd).1
    have hndrest : rest.Nodup := (List.nodup_cons.mp hnd).2
    have hg : getGroup m gid = some stoppedInternalGroup :=
      hentries gid (List.mem_cons_self _ _)
    have hfacpres : (startConsumerGroup create m reconfigureStartLock gid).snd.factory
        = m.factory :=
      (startConsumerGroup_preserves create m reconfigureStartLock gid).1
    have hframe : ∀ gid1, gid1 ≠ gid →
        getGroup (startConsumerGroup create m reconfigureStartLock gid).snd gid1
          = getGroup m gid1 :=
      (startConsumerGroup_preserves create m reconfigureStartLock gid).2
    cases hc : create f gid with
    | error e =>
      have hc0 : create m.factory gid = Except.error e := by
        rw [hf]
        exact hc
      have hres := startConsumerGroup_reconfigure_error create m gid
        stoppedInternalGroup e hg hc0
      have hentries1 : ∀ g ∈ rest,
          getGroup (startConsumerGroup create m reconfigureStartLock gid).snd g
            = some stoppedInternalGroup := by
        intro g hgR
        have hne : g ≠ gid := fun hEq => hnotin (hEq ▸ hgR)
        rw [hframe g hne]
        exact hentries g (List.mem_cons_of_mem _ hgR)
      obtain ⟨IH1, IH2, IH3, IH4⟩ :=
        ih (startConsumerGroup create m reconfigureStartLock gid).snd
          (hfacpres.trans hf) hentries1 hndrest
      refine ⟨?_, ?_, ?_, ?_⟩
      · simp [reconfigureStartPhase, hres.1, List.filterMap_cons, hc, errOfCreate, IH1]
      · simp only [reconfigureStartPhase, hres.1]
        exact IH2
      · intro g hgC s hcs
        rcases List.mem_cons.mp hgC with hEq | hgR
        · subst hEq
          rw [hc] at hcs
          simp at hcs
        · simp only [reconfigureStartPhase, hres.1]
          exact IH3 g hgR s hcs
      · intro g hgN
        have hg1 : g ≠ gid := fun hEq => hgN (hEq ▸ List.mem_cons_self _ _)
        have hg2 : g ∉ rest := fun hR => hgN (List.mem_cons_of_mem _ hR)
        simp only [reconfigureStartPhase, hres.1]
        rw [IH4 g hg2, hframe g hg1]
    | ok s =>
      have hc0 : create m.factory gid = Except.ok s := by
        rw [hf]
        exact hc
      have hres := startConsumerGroup_reconfigure_ok create m gid
        stoppedInternalGroup s hg rfl hc0
      have hentries1 : ∀ g ∈ rest,
          getGroup (startConsumerGroup create m reconfigureStartLock gid).snd g
            = some stoppedInternalGroup := by
        intro g hgR
        have hne : g ≠ gid := fun hEq => hnotin (hEq ▸ hgR)
        rw [hframe g hne]
        exact hentries g (List.mem_cons_of_mem _ hgR)
      obtain ⟨IH1, IH2, IH3, IH4⟩ :=
        ih (startConsumerGroup create m reconfigureStartLock gid).snd
          (hfacpres.trans hf) hentries1 hndrest
      refine ⟨?_, ?_, ?_, ?_⟩
      · simp [reconfigureStartPhase, hres.1, List.filterMap_cons, hc, errOfCreate, IH1]
      · simp only [reconfigureStartPhase, hres.1]
        exact IH2
      · intro g hgC s1 hcs
        rcases List.mem_cons.mp hgC with hEq | hgR
        · subst hEq
          rw [hc] at hcs
          have hs : s1 = s := by
            cases hcs
            rfl
          subst hs
          simp only [reconfigureStartPhase, hres.1]
          rw [IH4 g hnotin, hres.2]
        · simp only [reconfigureStartPhase, hres.1]
          exact IH3 g hgR s1 hcs
      · intro g hgN
        have hg1 : g ≠ gid := fun hEq => hgN (hEq ▸ List.mem_cons_self _ _)
        have hg2 : g ∉ rest := fun hR => hgN (List.mem_cons_of_mem _ hR)
        simp only [reconfigureStartPhase, hres.1]
        rw [IH4 g hg2, hframe g hg1]

/-! ### C2 -/

/-- C2: `Reconfigure` stops first, then installs the new factory
configuration, then restarts: the final factory is the new (brokers, config)
pair; the set of groups it restarts is exactly the registered groups whose
internal stop succeeds; and each such restart hands the managed group a
session created by the factory from the *new* configuration. -/
theorem reconfigure_stop_install_start (create : CreateFn) (m : Manager)
    (brokers : List String) (config : Nat)
    (hnd : (m.groups.map Prod.fst).Nodup) :
    (Reconfigure create m brokers config).snd.factory
      = { addrs := brokers, config := config }
    ∧ (∀ gid, gid ∈ (reconfigureStopPhase m (m.groups.map Prod.fst)).2.1 ↔
        gid ∈ m.groups.map Prod.fst
        ∧ (stopConsumerGroup m reconfigureStopLock gid).fst = none)
    ∧ (∀ gid ∈ (reconfigureStopPhase m (m.groups.map Prod.fst)).2.1,
        ∀ s, create { addrs := brokers, config := config } gid = Except.ok s →
        getGroup (Reconfigure create m brokers config).snd gid
          = some { state := GroupState.running, lockToken := none,
                   session := some s }) := by
  obtain ⟨SP1, SP2, SP3, SP4, SP5, SP6⟩ :=
    reconfigureStopPhase_spec m (m.groups.map Prod.fst) m (fun _ _ => rfl) hnd
  have hm2entries : ∀ gid ∈ (reconfigureStopPhase m (m.groups.map Prod.fst)).2.1,
      getGroup { (reconfigureStopPhase m (m.groups.map Prod.fst)).2.2 with
                 factory := { addrs := brokers, config := config } } gid
        = some stoppedInternalGroup := by
    intro g hgT
    exact SP5 g hgT
  have htrnodup : (reconfigureStopPhase m (m.groups.map Prod.fst)).2.1.Nodup :=
    SP3.nodup hnd
  obtain ⟨ST1, ST2, ST3, ST4⟩ :=
    reconfigureStartPhase_spec create { addrs := brokers, config := config }
      (reconfigureStopPhase m (m.groups.map Prod.fst)).2.1
      { (reconfigureStopPhase m (m.groups.map Prod.fst)).2.2 with
        factory := { addrs := brokers, config := config } }
      rfl hm2entries htrnodup
  refine ⟨ST2, SP2, ?_⟩
  intro g hgT s hcs
  exact ST3 g hgT s hcs

theorem reconfigure_stop_install_start_witness :
    (Reconfigure okCreate twoGroupManager ["new-broker"] 1).snd.factory
      = { addrs := ["new-broker"], config := 1 }
    ∧ ("g1" ∈ (reconfigureStopPhase twoGroupManager
          (twoGroupManager.groups.map Prod.fst)).2.1)
    ∧ ("g2" ∉ (reconfigureStopPhase twoGroupManager
          (twoGroupManager.groups.map Prod.fst)).2.1)
    ∧ getGroup (Reconfigure okCreate twoGroupManager ["new-broker"] 1).snd "g1"
      = some { state := GroupState.running, lockToken := none,
               session := some { cfg := { addrs := ["new-broker"], config := 1 },
                                 groupId := "g1" } } := by
  have h := reconfigure_stop_install_start okCreate twoGroupManager
    ["new-broker"] 1 (by decide)
  have hg1 : "g1" ∈ (reconfigureStopPhase twoGroupManager
      (twoGroupManager.groups.map Prod.fst)).2.1 :=
    (h.2.1 "g1").mpr (by decide)
  refine ⟨h.1, hg1, ?_, ?_⟩
  · intro hg2
    have := (h.2.1 "g2").mp hg2
    exact absurd this.2 (by decide)
  · exact h.2.2 "g1" hg1 _ rfl

/-! ### C4 -/

/-- C4: `Reconfigure` does not fail fast — its result is exactly the list of
stop failures over every registered group followed by the list of restart
(factory-creation) failures over every successfully-stopped group, and it is
the nil (empty) error precisely when no sub-operation failed. -/
theorem reconfigure_aggregates_all_errors (create : CreateFn) (m : Manager)
    (brokers : List String) (config : Nat)
    (hnd : (m.groups.map Prod.fst).Nodup) :
    (Reconfigure create m brokers config).fst
      = (m.groups.map Prod.fst).filterMap
          (fun gid => (stopConsumerGroup m reconfigureStopLock gid).fst)
        ++ (reconfigureStopPhase m (m.groups.map Prod.fst)).2.1.filterMap
            (fun gid => errOfCreate (create { addrs := brokers, config := config } gid))
    ∧ ((Reconfigure create m brokers config).fst = [] ↔
        (∀ gid ∈ m.groups.map Prod.fst,
            (stopConsumerGroup m reconfigureStopLock gid).fst = none)
        ∧ (∀ gid ∈ (reconfigureStopPhase m (m.groups.map Prod.fst)).2.1,
            errOfCreate (create { addrs := brokers, config := config } gid) = none)) := by
  obtain ⟨SP1, SP2, SP3, SP4, SP5, SP6⟩ :=
    reconfigureStopPhase_spec m (m.groups.map Prod.fst) m (fun _ _ => rfl) hnd
  have hm2entries : ∀ gid ∈ (reconfigureStopPhase m (m.groups.map Prod.fst)).2.1,
      getGroup { (reconfigureStopPhase m (m.groups.map Prod.fst)).2.2 with
                 factory := { addrs := brokers, config := config } } gid
        = some stoppedInternalGroup := by
    intro g hgT
    exact SP5 g hgT
  have htrnodup : (reconfigureStopPhase m (m.groups.map Prod.fst)).2.1.Nodup :=
    SP3.nodup hnd
  obtain ⟨ST1, ST2, ST3, ST4⟩ :=
    reconfigureStartPhase_spec create { addrs := brokers, config := config }
      (reconfigureStopPhase m (m.groups.map Prod.fst)).2.1
      { (reconfigureStopPhase m (m.groups.map Prod.fst)).2.2 with
        factory := { addrs := brokers, config := config } }
      rfl hm2entries htrnodup
  have h1 : (Reconfigure create m brokers config).fst
      = (m.groups.map Prod.fst).filterMap
          (fun gid => (stopConsumerGroup m reconfigureStopLock gid).fst)
        ++ (reconfigureStopPhase m (m.groups.map Prod.fst)).2.1.filterMap
            (fun gid => errOfCreate (create { addrs := brokers, config := config } gid)) := by
    show (reconfigureStopPhase m (m.groups.map Prod.fst)).1
        ++ (reconfigureStartPhase create _ _).1 = _
    rw [SP1, ST1]
  refine ⟨h1, ?_⟩
  rw [h1, List.append_eq_nil, List.filterMap_eq_nil_iff, List.filterMap_eq_nil_iff]

theorem reconfigure_aggregates_all_errors_witness :
    (Reconfigure failCreate twoGroupManager ["new-broker"] 1).fst
      = [Err.lockConflict, Err.factoryFailure 3]
    ∧ (Reconfigure failCreate twoGroupManager ["new-broker"] 1).fst ≠ [] := by
  have h := reconfigure_aggregates_all_errors failCreate twoGroupManager
    ["new-broker"] 1 (by decide)
  constructor
  · rw [h.1]
    decide
  · rw [h.1]
    decide

/-! ### C9 — customConsumerGroup.Close vs. the consume goroutine

An interleaving model of the two threads in the factory source:
the consume goroutine whose deferred block runs `close(errorCh)` and then
sends on the unbuffered `releasedCh`, and a caller of
`customConsumerGroup.Close`, which runs `cancel()`, receives from
`releasedCh`, and only then calls the underlying `ConsumerGroup.Close`. -/

namespace CloseSync

/-- Program counter of the consume goroutine. -/
inductive LoopPC where
  | looping
  | errChClosed
  | exited
  deriving DecidableEq, Repr

/-- Program counter of the `Close()` caller. -/
inductive ClosePC where
  | idle
  | cancelled
  | received
  | returned
  deriving DecidableEq, Repr

structure St where
  loop : LoopPC
  closer : ClosePC
  errChIsClosed : Bool
  underlyingClosed : Bool
  deriving DecidableEq, Repr

/-- Both threads at their entry points; no channel closed yet. -/
def startSt : St :=
  { loop := LoopPC.looping, closer := ClosePC.idle,
    errChIsClosed := false, underlyingClosed := false }

/-- One interleaving step.  `loopExit` is the goroutine's for-loop returning
and its deferred `close(errorCh)` running; `releasedRendezvous` is the
synchronous send/receive pair on the unbuffered `releasedCh`;
`closeUnderlying` is the underlying `ConsumerGroup.Close()` call after which
`Close` returns. -/
inductive Step : St → St → Prop where
  | loopExit (c : ClosePC) (e u : Bool) :
      Step { loop := LoopPC.looping, closer := c,
             errChIsClosed := e, underlyingClosed := u }
           { loop := LoopPC.errChClosed, closer := c,
             errChIsClosed := true, underlyingClosed := u }
  | cancelCall (l : LoopPC) (e u : Bool) :
      Step { loop := l, closer := ClosePC.idle,
             errChIsClosed := e, underlyingClosed := u }
           { loop := l, closer := ClosePC.cancelled,
             errChIsClosed := e, underlyingClosed := u }
  | releasedRendezvous (e u : Bool) :
      Step { loop := LoopPC.errChClosed, closer := ClosePC.cancelled,
             errChIsClosed := e, underlyingClosed := u }
           { loop := LoopPC.exited, closer := ClosePC.received,
             errChIsClosed := e, underlyingClosed := u }
  | closeUnderlying (l : LoopPC) (e : Bool) :
      Step { loop := l, closer := ClosePC.received,
             errChIsClosed := e, underlyingClosed := false }
           { loop := l, closer := ClosePC.returned,
             errChIsClosed := e, underlyingClosed := true }

def Reachable (s : St) : Prop := Relation.ReflTransGen Step startSt s

/-- The safety invariant: the errorCh is closed as soon as the loop has left
`looping`; once the closer has passed the rendezvous the goroutine has
exited; and the underlying Close happens only at the very end. -/
def Inv (s : St) : Prop :=
  ((s.loop = LoopPC.errChClosed ∨ s.loop = LoopPC.exited) → s.errChIsClosed = true)
  ∧ ((s.closer = ClosePC.received ∨ s.closer = ClosePC.returned) →
      (s.loop = LoopPC.exited ∧ s.errChIsClosed = true))
  ∧ (s.underlyingClosed = true → s.closer = ClosePC.returned)

theorem close_inv_step {s s' : St} (h : Step s s') (hs : Inv s) : Inv s' := by
  cases h with
  | loopExit c e u =>
    cases c <;> simp_all [Inv]
  | cancelCall l e u =>
    cases l <;> simp_all [Inv]
  | releasedRendezvous e u =>
    simp_all [Inv]
  | closeUnderlying l e =>
    cases l <;> simp_all [Inv]

end CloseSync

/-- C9: in every reachable interleaving state, once `Close()` has passed the
receive on `releasedCh` (and in particular once it has returned), the
consume goroutine has exited and the handler error channel is closed; and
the underlying ConsumerGroup Close has run only if `Close()` has completed
all of that. -/
theorem close_returns_after_loop_drained (s : CloseSync.St)
    (h : CloseSync.Reachable s) :
    ((s.closer = CloseSync.ClosePC.received
        ∨ s.closer = CloseSync.ClosePC.returned) →
      s.loop = CloseSync.LoopPC.exited ∧ s.errChIsClosed = true)
    ∧ (s.underlyingClosed = true →
      s.closer = CloseSync.ClosePC.returned
        ∧ s.loop = CloseSync.LoopPC.exited ∧ s.errChIsClosed = true) := by
  have hinv : CloseSync.Inv s := by
    induction h with
    | refl =>
      refine ⟨?_, ?_, ?_⟩ <;> intro hc <;> simp [CloseSync.startSt] at hc
    | tail _ hbc ih => exact CloseSync.close_inv_step hbc ih
  refine ⟨hinv.2.1, fun hu => ?_⟩
  have hret := hinv.2.2 hu
  exact ⟨hret, hinv.2.1 (Or.inr hret)⟩

theorem close_returns_after_loop_drained_witness :
    ({ loop := CloseSync.LoopPC.exited, closer := CloseSync.ClosePC.returned,
       errChIsClosed := true, underlyingClosed := true } : CloseSync.St).closer
        = CloseSync.ClosePC.returned
    ∧ ({ loop := CloseSync.LoopPC.exited, closer := CloseSync.ClosePC.returned,
         errChIsClosed := true, underlyingClosed := true } : CloseSync.St).loop
        = CloseSync.LoopPC.exited := by
  have hreach : CloseSync.Reachable
      { loop := CloseSync.LoopPC.exited, closer := CloseSync.ClosePC.returned,
        errChIsClosed := true, underlyingClosed := true } := by
    have t0 : Relation.ReflTransGen CloseSync.Step CloseSync.startSt CloseSync.startSt :=
      Relation.ReflTransGen.refl
    have t1 := t0.tail (CloseSync.Step.cancelCall CloseSync.LoopPC.looping false false)
    have t2 := t1.tail (CloseSync.Step.loopExit CloseSync.ClosePC.cancelled false false)
    have t3 := t2.tail (CloseSync.Step.releasedRendezvous true false)
    exact t3.tail (CloseSync.Step.closeUnderlying CloseSync.LoopPC.exited true)
  have h := close_returns_after_loop_drained _ hreach
  have h2 := h.2 rfl
  exact ⟨h2.1, h2.2.1⟩

/-! ### C10 — mergeErrorChannels

An interleaving model of `mergeErrorChannels`: one forwarding goroutine per
input channel (`for v := range c { out <- v }; wg.Done()`), external
producers that may send on and close the input channels, and the closer
goroutine (`wg.Wait(); close(out)`).  `wg.Wait()` returning is equivalent to
every forwarder having called Done. -/

namespace Merge

/-- One input channel with its forwarding goroutine: values sent but not yet
forwarded, whether the producer closed the channel, whether the forwarder has
called `wg.Done`, and (ghost) every value ever sent on it. -/
structure ChanSt where
  sent : List Err
  closed : Bool
  fwdDone : Bool
  produced : List Err
  deriving DecidableEq, Repr

structure St where
  chans : List ChanSt
  out : List Err
  outClosed : Bool
  closeCount : Nat
  deriving DecidableEq, Repr

/-- All values ever produced on the inputs. -/
def producedAll (chans : List ChanSt) : List Err :=
  (chans.map ChanSt.produced).flatten

/-- All values still queued on the inputs. -/
def sentAll (chans : List ChanSt) : List Err :=
  (chans.map ChanSt.sent).flatten

/-- `n` fresh input channels, nothing sent, `out` open. -/
def initSt (n : Nat) : St :=
  { chans := List.replicate n
      { sent := [], closed := false, fwdDone := false, produced := [] },
    out := [], outClosed := false, closeCount := 0 }

/-- One interleaving step: a producer sends on or closes an input; a
forwarder moves one value from its input to `out` (the `range` body) or —
once its input is closed and drained — calls `wg.Done`; the closer closes
`out` once every forwarder is done (`wg.Wait` has returned). -/
inductive Step : St → St → Prop where
  | produce (pre post : List ChanSt) (c : ChanSt) (v : Err) (out : List Err)
      (oc : Bool) (k : Nat) (h : c.closed = false) :
      Step { chans := pre ++ c :: post, out := out, outClosed := oc, closeCount := k }
           { chans := pre ++
               { c with sent := c.sent ++ [v], produced := c.produced ++ [v] } :: post,
             out := out, outClosed := oc, closeCount := k }
  | closeInput (pre post : List ChanSt) (c : ChanSt) (out : List Err)
      (oc : Bool) (k : Nat) (h : c.closed = false) :
      Step { chans := pre ++ c :: post, out := out, outClosed := oc, closeCount := k }
           { chans := pre ++ { c with closed := true } :: post,
             out := out, outClosed := oc, closeCount := k }
  | forward (pre post : List ChanSt) (c : ChanSt) (v : Err) (rest : List Err)
      (out : List Err) (oc : Bool) (k : Nat)
      (h : c.sent = v :: rest) (hd : c.fwdDone = false) :
      Step { chans := pre ++ c :: post, out := out, outClosed := oc, closeCount := k }
           { chans := pre ++ { c with sent := rest } :: post,
             out := out ++ [v], outClosed := oc, closeCount := k }
  | finishForwarder (pre post : List ChanSt) (c : ChanSt) (out : List Err)
      (oc : Bool) (k : Nat)
      (h : c.sent = []) (hc : c.closed = true) (hd : c.fwdDone = false) :
      Step { chans := pre ++ c :: post, out := out, outClosed := oc, closeCount := k }
           { chans := pre ++ { c with fwdDone := true } :: post,
             out := out, outClosed := oc, closeCount := k }
  | closeOut (chans : List ChanSt) (out : List Err) (k : Nat)
      (h : ∀ c ∈ chans, c.fwdDone = true) :
      Step { chans := chans, out := out, outClosed := false, closeCount := k }
           { chans := chans, out := out, outClosed := true, closeCount := k + 1 }

def Reachable (n : Nat) (s : St) : Prop :=
  Relation.ReflTransGen Step (initSt n) s

/-- Multiset view of the flattened image of an updated channel list. -/
theorem coe_flatten_decomp (f : ChanSt → List Err) (pre post : List ChanSt)
    (c : ChanSt) :
    (↑(((pre ++ c :: post).map f).flatten) : Multiset Err)
      = ↑((pre.map f).flatten) + (↑(f c) + ↑((post.map f).flatten)) := by
  rw [List.map_append, List.flatten_append, List.map_cons, List.flatten_cons]
  rw [← Multiset.coe_add, ← Multiset.coe_add]

theorem add_middle_congr {o a x b p y q v : Multiset Err}
    (h : o + (a + (x + b)) = p + (y + q)) :
    o + (a + ((x + v) + b)) = p + ((y + v) + q) := by
  calc o + (a + ((x + v) + b)) = (o + (a + (x + b))) + v := by abel
    _ = (p + (y + q)) + v := by rw [h]
    _ = p + ((y + v) + q) := by abel

theorem add_middle_shift {o a x b p : Multiset Err} {v : Err}
    (h : o + (a + ((v ::ₘ x) + b)) = p) :
    (o + {v}) + (a + (x + b)) = p := by
  rw [← h, ← Multiset.singleton_add]
  abel

theorem mem_update (c : ChanSt) {x c' : ChanSt} {pre post : List ChanSt}
    (hx : x ∈ pre ++ c' :: post) :
    x = c' ∨ x ∈ pre ++ c :: post := by
  rcases List.mem_append.mp hx with hp | hcp
  · exact Or.inr (List.mem_append.mpr (Or.inl hp))
  · rcases List.mem_cons.mp hcp with hEq | hpost
    · exact Or.inl hEq
    · exact Or.inr (List.mem_append.mpr (Or.inr (List.mem_cons_of_mem _ hpost)))

theorem self_mem_middle (c : ChanSt) (pre post : List ChanSt) :
    c ∈ pre ++ c :: post :=
  List.mem_append.mpr (Or.inr (List.mem_cons_self _ _))

/-- The safety invariant of the fan-in: `out` plus the still-queued values
accounts for exactly everything produced; a done forwarder has a closed,
drained input; a closed `out` means every forwarder is done; and `out` is
closed at most once. -/
def Inv (s : St) : Prop :=
  ((↑s.out + ↑(sentAll s.chans) : Multiset Err) = ↑(producedAll s.chans))
  ∧ (∀ c ∈ s.chans, c.fwdDone = true → c.closed = true ∧ c.sent = [])
  ∧ (s.outClosed = true → ∀ c ∈ s.chans, c.fwdDone = true)
  ∧ s.closeCount ≤ 1
  ∧ (s.closeCount = 0 ↔ s.outClosed = false)

theorem merge_inv_step {s s' : St} (h : Step s s') (hs : Inv s) : Inv s' := by
  obtain ⟨I1, I2, I3, I4, I5⟩ := hs
  cases h with
  | produce pre post c v out oc k h =>
    refine ⟨?_, ?_, ?_, I4, I5⟩
    · simp only [sentAll, producedAll, coe_flatten_decomp] at I1 ⊢
      simp only [← Multiset.coe_add]
      exact add_middle_congr I1
    · intro x hx
      rcases mem_update c hx with hEq | hmem
      · subst hEq
        intro hd
        have hcc := I2 c (self_mem_middle c pre post) hd
        rw [hcc.1] at h
        simp at h
      · exact I2 x hmem
    · intro hoc x hx
      rcases mem_update c hx with hEq | hmem
      · subst hEq
        have hd := I3 hoc c (self_mem_middle c pre post)
        have hcc := I2 c (self_mem_middle c pre post) hd
        rw [hcc.1] at h
        simp at h
      · exact I3 hoc x hmem
  | closeInput pre post c out oc k h =>
    refine ⟨?_, ?_, ?_, I4, I5⟩
    · simp only [sentAll, producedAll, coe_flatten_decomp] at I1 ⊢
      exact I1
    · intro x hx
      rcases mem_update c hx with hEq | hmem
      · subst hEq
        intro hd
        exact ⟨rfl, (I2 c (self_mem_middle c pre post) hd).2⟩
      · exact I2 x hmem
    · intro hoc x hx
      rcases mem_update c hx with hEq | hmem
      · subst hEq
        exact I3 hoc c (self_mem_middle c pre post)
      · exact I3 hoc x hmem
  | forward pre post c v rest out oc k h hd =>
    refine ⟨?_, ?_, ?_, I4, I5⟩
    · simp only [sentAll, producedAll, coe_flatten_decomp] at I1 ⊢
      rw [h] at I1
      rw [← Multiset.cons_coe] at I1
      simp only [← Multiset.coe_add, Multiset.coe_singleton]
      exact add_middle_shift I1
    · intro x hx
      rcases mem_update c hx with hEq | hmem
      · subst hEq
        intro hd1
        simp only [] at hd1
        rw [hd] at hd1
        simp at hd1
      · exact I2 x hmem
    · intro hoc x hx
      exfalso
      have := I3 hoc c (self_mem_middle c pre post)
      rw [hd] at this
      simp at this
  | finishForwarder pre post c out oc k h hc hd =>
    refine ⟨?_, ?_, ?_, I4, I5⟩
    · simp only [sentAll, producedAll, coe_flatten_decomp] at I1 ⊢
      exact I1
    · intro x hx
      rcases mem_update c hx with hEq | hmem
      · subst hEq
        intro _
        exact ⟨hc, h⟩
      · exact I2 x hmem
    · intro hoc x hx
      exfalso
      have := I3 hoc c (self_mem_middle c pre post)
      rw [hd] at this
      simp at this
  | closeOut chans out k h =>
    have hk : k = 0 := I5.mpr rfl
    subst hk
    refine ⟨I1, I2, fun _ => h, ?_, ?_⟩
    · show 0 + 1 ≤ 1
      omega
    · show 0 + 1 = 0 ↔ true = false
      simp

theorem inv_reachable {n : Nat} {s : St} (h : Reachable n s) : Inv s := by
  induction h with
  | refl =>
    refine ⟨?_, ?_, ?_, ?_, ?_⟩
    · simp [initSt, sentAll, producedAll, List.map_replicate]
    · intro c hc
      rw [List.eq_of_mem_replicate hc]
      intro hd
      simp at hd
    · intro hoc
      simp [initSt] at hoc
    · simp [initSt]
    · simp [initSt]
  | tail _ hbc ih => exact merge_inv_step hbc ih

end Merge

/-- C10: in every reachable interleaving of `mergeErrorChannels`, once the
output channel has been closed, every input channel has been closed and
fully drained and the output carries exactly (as a multiset) every value
received on any input; and the output is closed at most once — and only
through the guarded transition that requires every forwarder to be done. -/
theorem merge_error_channels_close_spec (n : Nat) (s : Merge.St)
    (h : Merge.Reachable n s) :
    (s.outClosed = true →
      (∀ c ∈ s.chans, c.closed = true ∧ c.sent = [] ∧ c.fwdDone = true)
      ∧ (↑s.out : Multiset Err) = ↑(Merge.producedAll s.chans))
    ∧ s.closeCount ≤ 1 := by
  have hinv := Merge.inv_reachable h
  refine ⟨?_, hinv.2.2.2.1⟩
  intro hoc
  have hall : ∀ c ∈ s.chans, c.closed = true ∧ c.sent = [] ∧ c.fwdDone = true := by
    intro c hc
    have hd := hinv.2.2.1 hoc c hc
    have hcs := hinv.2.1 c hc hd
    exact ⟨hcs.1, hcs.2, hd⟩
  refine ⟨hall, ?_⟩
  have hsent : Merge.sentAll s.chans = [] := by
    apply List.flatten_eq_nil_iff.mpr
    intro l hl
    rcases List.mem_map.mp hl with ⟨c, hc, hfc⟩
    rw [← hfc]
    exact (hall c hc).2.1
  have h1 := hinv.1
  rw [hsent] at h1
  simpa using h1

theorem merge_error_channels_close_spec_witness :
    ((∀ c ∈ [({ sent := [], closed := true, fwdDone := true,
                produced := [Err.factoryFailure 0] } : Merge.ChanSt)],
        c.closed = true ∧ c.sent = [] ∧ c.fwdDone = true)
     ∧ (↑[Err.factoryFailure 0] : Multiset Err)
         = ↑(Merge.producedAll
             [{ sent := [], closed := true, fwdDone := true,
                produced := [Err.factoryFailure 0] }]))
    ∧ (1 : Nat) ≤ 1 := by
  have hreach : Merge.Reachable 1
      { chans := [{ sent := [], closed := true, fwdDone := true,
                    produced := [Err.factoryFailure 0] }],
        out := [Err.factoryFailure 0], outClosed := true, closeCount := 1 } := by
    have t0 : Relation.ReflTransGen Merge.Step (Merge.initSt 1) (Merge.initSt 1) :=
      Relation.ReflTransGen.refl
    have t1 := t0.tail (Merge.Step.produce [] []
      { sent := [], closed := false, fwdDone := false, produced := [] }
      (Err.factoryFailure 0) [] false 0 rfl)
    have t2 := t1.tail (Merge.Step.closeInput [] []
      { sent := [Err.factoryFailure 0], closed := false, fwdDone := false,
        produced := [Err.factoryFailure 0] } [] false 0 rfl)
    have t3 := t2.tail (Merge.Step.forward [] []
      { sent := [Err.factoryFailure 0], closed := true, fwdDone := false,
        produced := [Err.factoryFailure 0] }
      (Err.factoryFailure 0) [] [] false 0 rfl rfl)
    have t4 := t3.tail (Merge.Step.finishForwarder [] []
      { sent := [], closed := true, fwdDone := false,
        produced := [Err.factoryFailure 0] }
      [Err.factoryFailure 0] false 0 rfl rfl rfl)
    exact t4.tail (Merge.Step.closeOut
      [{ sent := [], closed := true, fwdDone := true,
         produced := [Err.factoryFailure 0] }]
      [Err.factoryFailure 0] 0 (by decide))
  have hspec := merge_error_channels_close_spec 1 _ hreach
  exact ⟨hspec.1 rfl, hspec.2⟩

end ConsumerManager
